import Mathlib

/-!
Shallow embedding of dedo/utils/anchor_utils.py.

Conventions used throughout:
- 3D vectors carry rational coordinates; the numpy float arithmetic of the
  source is modelled exactly over the rationals.
- Comparisons of Euclidean norms are encoded by comparisons of squared
  norms: for nonnegative d, e we have sqrt d ≤ sqrt e iff d ≤ e, and
  sqrt d ≤ R iff 0 ≤ R ∧ d ≤ R * R.  Distance arrays therefore hold
  squared Euclidean distances, which keeps every definition computable.
- numpy exceptions (ValueError raised by np.argpartition when kth is out
  of bounds, IndexError raised by fancy indexing) are modelled by
  Except PyErr.
- np.mean over an empty axis emits NaN; this is modelled by Option Vec3,
  with none standing for the NaN vector.
- np.argpartition followed by slicing [0:k] returns k indices whose
  distances are among the k smallest.  The model fixes one valid outcome
  of the unspecified tie-breaking: the stable sort of all indices by
  distance.
-/

-- Batteries seals rational arithmetic; re-open it locally so that concrete
-- instances of the definitions below evaluate by kernel reduction.
attribute [local semireducible] Rat.add Rat.sub Rat.mul Rat.inv

/-- A 3D point or vector with exact rational coordinates. -/
structure Vec3 where
  x : ℚ
  y : ℚ
  z : ℚ
deriving DecidableEq

/-- The zero vector, used as an out-of-range default (never actually read
on in-range indices). -/
def vzero : Vec3 := ⟨0, 0, 0⟩

/-- Exceptions that the numpy calls in anchor_utils.py can raise. -/
inductive PyErr where
  | valueError
  | indexError
deriving DecidableEq

instance {ε α : Type} [DecidableEq ε] [DecidableEq α] : DecidableEq (Except ε α) :=
  fun x y =>
  match x, y with
  | .ok a, .ok b =>
    if h : a = b then isTrue (by rw [h]) else isFalse (by intro hc; cases hc; exact h rfl)
  | .error e, .error f =>
    if h : e = f then isTrue (by rw [h]) else isFalse (by intro hc; cases hc; exact h rfl)
  | .ok _, .error _ => isFalse (by intro hc; cases hc)
  | .error _, .ok _ => isFalse (by intro hc; cases hc)

/-- Squared Euclidean distance between two points. -/
def sqDist (p q : Vec3) : ℚ :=
  (p.x - q.x) ^ 2 + (p.y - q.y) ^ 2 + (p.z - q.z) ^ 2

/-- RGBA color, exact rationals. -/
abbrev Rgba := ℚ × ℚ × ℚ × ℚ

-- Module-level constants of anchor_utils.py (floats written exactly).
def ANCHOR_MIN_DIST : ℚ := 1 / 50

def ANCHOR_MASS : ℚ := 1 / 10

def ANCHOR_RADIUS : ℚ := 7 / 1000

def ANCHOR_RGBA_ACTIVE : Rgba := (1, 0, 1, 1)

def ANCHOR_RGBA_INACTIVE : Rgba := (1 / 2, 1 / 2, 1 / 2, 1)

def ANCHOR_RGBA_PEACH : Rgba := (9 / 10, 3 / 4, 13 / 20, 1)

def CTRL_MAX_FORCE : ℚ := 10

def CTRL_PD_KD : ℚ := 50

/-- dists = np.linalg.norm(mesh - init_pos, axis=1), stored squared. -/
def distsOf (initPos : Vec3) (mesh : List Vec3) : List ℚ :=
  mesh.map (fun q => sqDist q initPos)

/-- num_to_pin = min(mesh.shape[0], max(1, mesh.shape[0] // 50)). -/
def numToPin (n : ℕ) : ℕ :=
  min n (max 1 (n / 50))

/-- Comparison of (squared) distances at two indices of a distance array. -/
def distLE (d : List ℚ) (i j : ℕ) : Prop :=
  d.getD i 0 ≤ d.getD j 0

instance (d : List ℚ) : DecidableRel (distLE d) :=
  fun _ _ => inferInstanceAs (Decidable (_ ≤ _))

instance (d : List ℚ) : IsTotal ℕ (distLE d) :=
  ⟨fun _ _ => le_total _ _⟩

instance (d : List ℚ) : IsTrans ℕ (distLE d) :=
  ⟨fun _ _ _ h1 h2 => le_trans h1 h2⟩

/-- All mesh indices, stably sorted by distance.  This is one valid
outcome of np.argpartition(dists, k) (every valid outcome agrees on the
multiset of the first k distances). -/
def argsortIdx (d : List ℚ) : List ℕ :=
  List.insertionSort (distLE d) (List.range d.length)

/-- The boolean mask dists[i] <= max_dist, with the Euclidean comparison
sqrt (d.getD i 0) ≤ r encoded over squares. -/
def capKeep (d : List ℚ) (r : ℚ) (i : ℕ) : Bool :=
  decide (0 ≤ r ∧ d.getD i 0 ≤ r * r)

/-- np.mean(ps, axis=0): the arithmetic mean of a list of points, none on
the empty list (numpy yields NaN there). -/
def centroid (ps : List Vec3) : Option Vec3 :=
  match ps with
  | [] => none
  | _ =>
    some ⟨(ps.map Vec3.x).sum / (ps.length : ℚ),
          (ps.map Vec3.y).sum / (ps.length : ℚ),
          (ps.map Vec3.z).sum / (ps.length : ℚ)⟩

/-- anchor_vertices = np.argpartition(dists, num_to_pin)[0:num_to_pin]. -/
def selNoCap (initPos : Vec3) (mesh : List Vec3) : List ℕ :=
  (argsortIdx (distsOf initPos mesh)).take (numToPin mesh.length)

/-- The selected indices of get_closest, after the optional max_dist
filter anchor_vertices[dists[anchor_vertices] <= max_dist]. -/
def getClosestSel (initPos : Vec3) (mesh : List Vec3) : Option ℚ → List ℕ
  | none => selNoCap initPos mesh
  | some r => (selNoCap initPos mesh).filter (capKeep (distsOf initPos mesh) r)

/-- The pair (new_anc_pos, anchor_vertices) returned by get_closest on the
non-raising path: new_anc_pos = mesh[anchor_vertices].mean(axis=0). -/
def getClosestOk (initPos : Vec3) (mesh : List Vec3) (maxDist : Option ℚ) :
    Option Vec3 × List ℕ :=
  (centroid ((getClosestSel initPos mesh maxDist).map (fun i => mesh.getD i vzero)),
   getClosestSel initPos mesh maxDist)

/-- get_closest(init_pos, mesh, max_dist).  np.argpartition(dists, kth)
requires kth < len(dists) and raises ValueError otherwise (this happens
exactly when the mesh has fewer than two points). -/
def getClosest (initPos : Vec3) (mesh : List Vec3) (maxDist : Option ℚ) :
    Except PyErr (Option Vec3 × List ℕ) :=
  if numToPin mesh.length < mesh.length then
    Except.ok (getClosestOk initPos mesh maxDist)
  else
    Except.error PyErr.valueError

/-- np.clip(x, lo, hi) on one entry: first max with lo, then min with hi. -/
def clip (x lo hi : ℚ) : ℚ :=
  min (max x lo) hi

/-- The force computed by command_anchor_velocity:
force = np.clip(CTRL_PD_KD * (tgt_vel - anc_linvel), -1.0 * CTRL_MAX_FORCE,
CTRL_MAX_FORCE), where anc_linvel is the linear velocity that
sim.getBaseVelocity reports for the anchor; the result is then applied with
sim.applyExternalForce for the current step. -/
def commandAnchorVelocityForce (ancLinvel tgtVel : Vec3) : Vec3 :=
  ⟨clip (CTRL_PD_KD * (tgtVel.x - ancLinvel.x)) (-1 * CTRL_MAX_FORCE) CTRL_MAX_FORCE,
   clip (CTRL_PD_KD * (tgtVel.y - ancLinvel.y)) (-1 * CTRL_MAX_FORCE) CTRL_MAX_FORCE,
   clip (CTRL_PD_KD * (tgtVel.z - ancLinvel.z)) (-1 * CTRL_MAX_FORCE) CTRL_MAX_FORCE⟩

/-- A rigid body created by sim.createMultiBody.  The base-link visual
color is tracked directly on the body: changeVisualShape(body, -1,
rgbaColor) updates it. -/
structure Body where
  bodyId : ℕ
  mass : ℚ
  basePosition : Vec3
  collisionShapeIndex : ℤ
  visualShapeIndex : ℕ
  rgba : Rgba
deriving DecidableEq

/-- A soft-body anchor constraint created by sim.createSoftBodyAnchor,
linking the given vertex of deformable deformId to rigid body bodyId.
Its unique id cid lives in the constraint counter, which is separate from
the body-id counter. -/
structure Constraint where
  deformId : ℕ
  vertex : ℕ
  bodyId : ℕ
  cid : ℕ
deriving DecidableEq

/-- The fragment of pybullet state that anchor_utils touches.  Shape ids
are the positions in the corresponding lists; body and constraint unique
ids are drawn from their own counters (bodies and constraints created
before any call of this module may occupy earlier ids). -/
structure SimState where
  bodies : List Body
  constraints : List Constraint
  nextBodyId : ℕ
  nextConstraintUid : ℕ
  visualShapes : List (ℚ × Rgba)
  collisionShapes : List ℚ
deriving DecidableEq

/-- sim.createVisualShape(pybullet.GEOM_SPHERE, radius, rgbaColor). -/
def createVisualShape (s : SimState) (radius : ℚ) (rgba : Rgba) : ℕ × SimState :=
  (s.visualShapes.length, { s with visualShapes := s.visualShapes ++ [(radius, rgba)] })

/-- sim.createCollisionShape(pybullet.GEOM_SPHERE, radius). -/
def createCollisionShape (s : SimState) (radius : ℚ) : ℤ × SimState :=
  ((s.collisionShapes.length : ℤ), { s with collisionShapes := s.collisionShapes ++ [radius] })

/-- sim.createMultiBody(baseMass, basePosition, baseCollisionShapeIndex,
baseVisualShapeIndex, useMaximalCoordinates=True): registers a body under
a fresh body unique id; its initial base color is the color of its visual
shape. -/
def createMultiBody (s : SimState) (baseMass : ℚ) (basePosition : Vec3)
    (baseCollisionShapeIndex : ℤ) (baseVisualShapeIndex : ℕ) : ℕ × SimState :=
  (s.nextBodyId,
   { s with
     bodies := s.bodies ++
       [{ bodyId := s.nextBodyId
          mass := baseMass
          basePosition := basePosition
          collisionShapeIndex := baseCollisionShapeIndex
          visualShapeIndex := baseVisualShapeIndex
          rgba := (s.visualShapes.getD baseVisualShapeIndex (0, (0, 0, 0, 0))).2 }]
     nextBodyId := s.nextBodyId + 1 })

/-- sim.changeVisualShape(bodyId, -1, rgbaColor): recolors the base link
of the body with the given unique id. -/
def changeVisualShape (s : SimState) (bodyId : ℕ) (rgba : Rgba) : SimState :=
  { s with
    bodies := s.bodies.map (fun b => if b.bodyId = bodyId then { b with rgba := rgba } else b) }

/-- sim.createSoftBodyAnchor(deformId, vertex, bodyId, -1): creates one
constraint under a fresh constraint unique id and returns that id. -/
def createSoftBodyAnchor (s : SimState) (deformId vertex bodyId : ℕ) : ℕ × SimState :=
  (s.nextConstraintUid,
   { s with
     constraints := s.constraints ++
       [{ deformId := deformId, vertex := vertex, bodyId := bodyId, cid := s.nextConstraintUid }]
     nextConstraintUid := s.nextConstraintUid + 1 })

/-- sim.removeConstraint(uid): removes the constraint carrying the given
constraint unique id (a no-op when no constraint has that uid). -/
def removeConstraint (s : SimState) (cid : ℕ) : SimState :=
  { s with constraints := s.constraints.filter (fun c => c.cid ≠ cid) }

/-- create_anchor_geom(sim, pos, mass, radius, rgba, use_collision).  The
python defaults mass=ANCHOR_MASS, radius=ANCHOR_RADIUS,
rgba=ANCHOR_RGBA_INACTIVE, use_collision=True are passed explicitly at
every call site of this model. -/
def createAnchorGeom (s : SimState) (pos : Vec3) (mass radius : ℚ) (rgba : Rgba)
    (useCollision : Bool) : ℕ × SimState :=
  let r1 := createVisualShape s radius rgba
  let r2 :=
    if 0 < mass ∧ useCollision = true then createCollisionShape r1.2 radius
    else (-1, r1.2)
  createMultiBody r2.2 mass pos r2.1 r1.1

/-- attach_anchor(sim, anchor_id, anchor_vertices, deform_id, change_color). -/
def attachAnchor (s : SimState) (anchorId : ℕ) (anchorVertices : List ℕ)
    (deformId : ℕ) (changeColor : Bool) : SimState :=
  let s1 := if changeColor then changeVisualShape s anchorId ANCHOR_RGBA_ACTIVE else s
  anchorVertices.foldl (fun st v => (createSoftBodyAnchor st deformId v anchorId).2) s1

/-- release_anchor(sim, anchor_id): a single removeConstraint call whose
argument is the BODY unique id of the anchor, followed by recoloring the
anchor to the inactive gray. -/
def releaseAnchor (s : SimState) (anchorId : ℕ) : SimState :=
  changeVisualShape (removeConstraint s anchorId) anchorId ANCHOR_RGBA_INACTIVE

/-- The loop of pin_fixed: for each v_idx, read v_pos_list[v_idx] (an
IndexError stops the loop, keeping the effects made so far, flagged by the
returned Bool), create a zero-mass peach marker of radius 0.002 there and
bind the single vertex to it. -/
def pinFixedLoop (deformId : ℕ) (vPosList : List Vec3) :
    SimState → List ℕ → SimState × Bool
  | s, [] => (s, false)
  | s, vIdx :: rest =>
    if h : vIdx < vPosList.length then
      let r1 := createAnchorGeom s (vPosList.get ⟨vIdx, h⟩) 0 (1 / 500) ANCHOR_RGBA_PEACH true
      let r2 := createSoftBodyAnchor r1.2 deformId vIdx r1.1
      pinFixedLoop deformId vPosList r2.2 rest
    else (s, true)

/-- pin_fixed(sim, deform_id, vert_ids).  Modelled from the spec:
get_mesh_data lives in dedo/utils/mesh_utils.py, outside this file; per
the spec it returns the current vertex positions of the deformable, and
the model takes that snapshot as the argument vPosList. -/
def pinFixed (s : SimState) (deformId : ℕ) (vertIds : List ℕ)
    (vPosList : List Vec3) : SimState × Bool :=
  pinFixedLoop deformId vPosList s vertIds

/-- mesh[verts] by numpy fancy indexing: raises IndexError when some index
is out of range. -/
def gatherVerts (mesh : List Vec3) : List ℕ → Except PyErr (List Vec3)
  | [] => Except.ok []
  | i :: rest =>
    if h : i < mesh.length then
      match gatherVerts mesh rest with
      | Except.ok vs => Except.ok (mesh.get ⟨i, h⟩ :: vs)
      | Except.error e => Except.error e
    else Except.error PyErr.indexError

/-- The vertex-selection and position-resolution step of create_anchor
(before it hands the resolved position to create_anchor_geom):
if use_preset and preset_vertices is not None, take the slot
preset_vertices[anchor_idx] verbatim and recenter on its centroid in the
current mesh; elif use_closest, call get_closest(anchor_pos, mesh) with no
max_dist; else keep anchor_pos and select no vertices (None). -/
def createAnchorSelect (anchorPos : Vec3) (anchorIdx : ℕ)
    (presetVertices : Option (List (List ℕ))) (mesh : List Vec3)
    (usePreset useClosest : Bool) :
    Except PyErr (Option Vec3 × Option (List ℕ)) :=
  match usePreset, presetVertices with
  | true, some presets =>
    if h : anchorIdx < presets.length then
      match gatherVerts mesh (presets.get ⟨anchorIdx, h⟩) with
      | Except.ok pts => Except.ok (centroid pts, some (presets.get ⟨anchorIdx, h⟩))
      | Except.error e => Except.error e
    else Except.error PyErr.indexError
  | _, _ =>
    if useClosest then
      match getClosest anchorPos mesh none with
      | Except.ok pv => Except.ok (pv.1, some pv.2)
      | Except.error e => Except.error e
    else Except.ok (some anchorPos, none)

/-- The list of constraints appended by the attach_anchor loop: one per
vertex, in order, with consecutive fresh uids starting at u. -/
def mkAnchorConstraints (deformId anchorId : ℕ) : ℕ → List ℕ → List Constraint
  | _, [] => []
  | u, v :: rest =>
    { deformId := deformId, vertex := v, bodyId := anchorId, cid := u } ::
      mkAnchorConstraints deformId anchorId (u + 1) rest

/-- The (k+1)-st smallest squared distance from the target to the mesh:
0-indexed position k in the sorted list of all squared distances.
Squared distances order exactly as the Euclidean distances of the source. -/
def nthSmallestSq (p : Vec3) (mesh : List Vec3) (k : ℕ) : ℚ :=
  (List.insertionSort (fun a b => a ≤ b) (distsOf p mesh)).getD k 0

/-- A pristine simulator. -/
def simEmpty : SimState :=
  { bodies := [], constraints := [], nextBodyId := 0, nextConstraintUid := 0,
    visualShapes := [], collisionShapes := [] }

/-- A dynamic anchor created in the pristine simulator with the python
default arguments of create_anchor_geom. -/
def ancDemo : ℕ × SimState :=
  createAnchorGeom simEmpty vzero ANCHOR_MASS ANCHOR_RADIUS ANCHOR_RGBA_INACTIVE true

/-- The demo anchor attached to vertices 0 and 1 of deformable 5: two
soft-body constraints are created. -/
def attachedDemo : SimState :=
  attachAnchor ancDemo.2 ancDemo.1 [0, 1] 5 true

/-- The demo anchor released again. -/
def releasedDemo : SimState :=
  releaseAnchor attachedDemo ancDemo.1

/-! ### Supporting lemmas -/

theorem abs_clip_le (x : ℚ) :
    |clip x (-1 * CTRL_MAX_FORCE) CTRL_MAX_FORCE| ≤ CTRL_MAX_FORCE := by
  rw [abs_le]
  constructor
  · apply le_min
    · calc -CTRL_MAX_FORCE = -1 * CTRL_MAX_FORCE := by ring
        _ ≤ max x (-1 * CTRL_MAX_FORCE) := le_max_right _ _
    · norm_num [CTRL_MAX_FORCE]
  · exact min_le_right _ _

theorem getClosest_ok_elim {p : Vec3} {mesh : List Vec3} {md : Option ℚ}
    {res : Option Vec3 × List ℕ} (h : getClosest p mesh md = Except.ok res) :
    numToPin mesh.length < mesh.length ∧ res = getClosestOk p mesh md := by
  by_cases hk : numToPin mesh.length < mesh.length
  · rw [getClosest, if_pos hk] at h
    exact ⟨hk, (Except.ok.inj h).symm⟩
  · rw [getClosest, if_neg hk] at h
    exact absurd h (by simp)

theorem getClosest_eq_ok (p : Vec3) (mesh : List Vec3) (md : Option ℚ)
    (hk : numToPin mesh.length < mesh.length) :
    getClosest p mesh md = Except.ok (getClosestOk p mesh md) := by
  rw [getClosest, if_pos hk]

/-! ### C1, C4, C6, C7 -/

/-- C1: the claim says that get_closest on every non-empty mesh with no
max_dist returns an index set of size min(N, max(1, floor(N/50))), in
particular size 1 on a single-vertex mesh.  On a single-vertex mesh the
code instead raises: num_to_pin = 1 and np.argpartition(dists, 1) on a
length-1 array is a ValueError (kth out of bounds). -/
theorem getClosest_single_vertex_valueError :
    getClosest vzero [⟨1, 2, 3⟩] none = Except.error PyErr.valueError := by
  decide

/-- C4: command_anchor_velocity computes the applied force as
Kd * (target velocity - current velocity) clipped per axis to
[-Fmax, Fmax], with Kd = 50 and Fmax = 10, so the applied force never
exceeds Fmax in absolute value on any axis. -/
theorem commandAnchorVelocity_force_clamped (cur tgt : Vec3) :
    CTRL_PD_KD = 50 ∧ CTRL_MAX_FORCE = 10 ∧
    commandAnchorVelocityForce cur tgt =
      ⟨clip (CTRL_PD_KD * (tgt.x - cur.x)) (-1 * CTRL_MAX_FORCE) CTRL_MAX_FORCE,
       clip (CTRL_PD_KD * (tgt.y - cur.y)) (-1 * CTRL_MAX_FORCE) CTRL_MAX_FORCE,
       clip (CTRL_PD_KD * (tgt.z - cur.z)) (-1 * CTRL_MAX_FORCE) CTRL_MAX_FORCE⟩ ∧
    |(commandAnchorVelocityForce cur tgt).x| ≤ CTRL_MAX_FORCE ∧
    |(commandAnchorVelocityForce cur tgt).y| ≤ CTRL_MAX_FORCE ∧
    |(commandAnchorVelocityForce cur tgt).z| ≤ CTRL_MAX_FORCE :=
  ⟨rfl, rfl, rfl, abs_clip_le _, abs_clip_le _, abs_clip_le _⟩

/-- C6: the claim says release_anchor removes all soft-body constraints of
the anchor, so attach-then-release leaves zero active constraints.  The
code calls sim.removeConstraint(anchor_id) once, passing the anchor BODY
unique id where a constraint unique id is expected; after attaching two
vertices, exactly one of the two constraints survives release in this run
(the recoloring to the inactive gray does happen). -/
theorem releaseAnchor_leaves_constraint :
    (releasedDemo.constraints.filter (fun c => c.bodyId = ancDemo.1)).length = 1 ∧
    releasedDemo.bodies.map Body.rgba = [ANCHOR_RGBA_INACTIVE] := by
  decide

/-- C7: release_anchor never destroys the marker body: the body list keeps
exactly the same bodies (same unique ids, in the same order), with the
anchor merely recolored to the inactive gray. -/
theorem releaseAnchor_preserves_bodies (s : SimState) (aid : ℕ) :
    (releaseAnchor s aid).bodies =
      s.bodies.map
        (fun b => if b.bodyId = aid then { b with rgba := ANCHOR_RGBA_INACTIVE } else b) ∧
    (releaseAnchor s aid).bodies.map Body.bodyId = s.bodies.map Body.bodyId := by
  refine ⟨rfl, ?_⟩
  show (s.bodies.map _).map Body.bodyId = _
  rw [List.map_map]
  apply List.map_congr_left
  intro b _
  by_cases hb : b.bodyId = aid <;> simp [Function.comp, hb]

/-! ### Supporting lemmas for attach_anchor, create_anchor_geom, pin_fixed -/

theorem mkAnchorConstraints_map_vertex (did aid : ℕ) :
    ∀ (u : ℕ) (vs : List ℕ),
      (mkAnchorConstraints did aid u vs).map Constraint.vertex = vs
  | _, [] => rfl
  | u, v :: rest => by
    simp [mkAnchorConstraints, mkAnchorConstraints_map_vertex did aid (u + 1) rest]

theorem mkAnchorConstraints_mem (did aid : ℕ) :
    ∀ (u : ℕ) (vs : List ℕ) (k : Constraint),
      k ∈ mkAnchorConstraints did aid u vs → k.deformId = did ∧ k.bodyId = aid
  | _, [], k => by simp [mkAnchorConstraints]
  | u, v :: rest, k => by
    intro hk
    simp only [mkAnchorConstraints, List.mem_cons] at hk
    rcases hk with hk | hk
    · subst hk
      exact ⟨rfl, rfl⟩
    · exact mkAnchorConstraints_mem did aid (u + 1) rest k hk

theorem attachLoop_spec (did aid : ℕ) (vs : List ℕ) :
    ∀ s : SimState,
      ((vs.foldl (fun st v => (createSoftBodyAnchor st did v aid).2) s).constraints =
        s.constraints ++ mkAnchorConstraints did aid s.nextConstraintUid vs) ∧
      (vs.foldl (fun st v => (createSoftBodyAnchor st did v aid).2) s).bodies = s.bodies := by
  induction vs with
  | nil =>
    intro s
    simp [mkAnchorConstraints]
  | cons v rest ih =>
    intro s
    obtain ⟨h1, h2⟩ := ih (createSoftBodyAnchor s did v aid).2
    refine ⟨?_, ?_⟩
    · rw [List.foldl_cons, h1]
      simp [createSoftBodyAnchor, mkAnchorConstraints]
    · rw [List.foldl_cons, h2]
      rfl

theorem getD_append_length {α : Type} (l : List α) (a d : α) :
    (l ++ [a]).getD l.length d = a := by
  induction l with
  | nil => rfl
  | cons x l ih => exact ih

theorem createAnchorGeom_bodies (s : SimState) (pos : Vec3) (mass radius : ℚ)
    (rgba : Rgba) (uc : Bool) :
    (createAnchorGeom s pos mass radius rgba uc).2.bodies =
      s.bodies ++
        [{ bodyId := s.nextBodyId
           mass := mass
           basePosition := pos
           collisionShapeIndex :=
             if 0 < mass ∧ uc = true then (s.collisionShapes.length : ℤ) else -1
           visualShapeIndex := s.visualShapes.length
           rgba := rgba }] := by
  unfold createAnchorGeom createVisualShape createCollisionShape createMultiBody
  dsimp only
  by_cases hc : 0 < mass ∧ uc = true
  · rw [if_pos hc, if_pos hc]
    simp [getD_append_length]
  · rw [if_neg hc, if_neg hc]
    simp [getD_append_length]

theorem createAnchorGeom_fst (s : SimState) (pos : Vec3) (mass radius : ℚ)
    (rgba : Rgba) (uc : Bool) :
    (createAnchorGeom s pos mass radius rgba uc).1 = s.nextBodyId := by
  unfold createAnchorGeom createVisualShape createCollisionShape createMultiBody
  dsimp only
  by_cases hc : 0 < mass ∧ uc = true
  · rw [if_pos hc]
  · rw [if_neg hc]

theorem pinFixedLoop_mem (did : ℕ) (vpl : List Vec3) (vids : List ℕ) :
    ∀ (s : SimState) (b : Body),
      b ∈ (pinFixedLoop did vpl s vids).1.bodies →
      b ∈ s.bodies ∨ (b.mass = 0 ∧ b.collisionShapeIndex = -1) := by
  induction vids with
  | nil =>
    intro s b h
    exact Or.inl h
  | cons vIdx rest ih =>
    intro s b hb
    by_cases h : vIdx < vpl.length
    · rw [pinFixedLoop, dif_pos h] at hb
      rcases ih _ b hb with hmem | hp
      · have hmem2 :
            b ∈ (createAnchorGeom s (vpl.get ⟨vIdx, h⟩) 0 (1 / 500)
              ANCHOR_RGBA_PEACH true).2.bodies := hmem
        rw [createAnchorGeom_bodies] at hmem2
        rcases List.mem_append.mp hmem2 with h1 | h2
        · exact Or.inl h1
        · right
          rw [List.mem_singleton.mp h2]
          refine ⟨rfl, ?_⟩
          simp
      · exact Or.inr hp
    · rw [pinFixedLoop, dif_neg h] at hb
      exact Or.inl hb

/-! ### C8 and C10 -/

/-- C8: attach_anchor appends exactly one point-to-point soft-body
constraint per vertex index in the given selection (so none at all when
the selection is empty), each linking that vertex of the deformable to the
anchor marker, and recolors the marker to the active magenta exactly when
change_color is requested. -/
theorem attachAnchor_one_constraint_per_vertex (s : SimState) (aid : ℕ)
    (vs : List ℕ) (did : ℕ) (c : Bool) :
    (attachAnchor s aid vs did c).constraints =
      s.constraints ++ mkAnchorConstraints did aid s.nextConstraintUid vs ∧
    (mkAnchorConstraints did aid s.nextConstraintUid vs).length = vs.length ∧
    (mkAnchorConstraints did aid s.nextConstraintUid vs).map Constraint.vertex = vs ∧
    (∀ k ∈ mkAnchorConstraints did aid s.nextConstraintUid vs,
      k.deformId = did ∧ k.bodyId = aid) ∧
    (vs = [] → (attachAnchor s aid vs did c).constraints = s.constraints) ∧
    (attachAnchor s aid vs did c).bodies =
      (if c then
        s.bodies.map
          (fun b => if b.bodyId = aid then { b with rgba := ANCHOR_RGBA_ACTIVE } else b)
      else s.bodies) := by
  have hbase :
      ∀ s1 : SimState,
        (vs.foldl (fun st v => (createSoftBodyAnchor st did v aid).2) s1).constraints =
          s1.constraints ++ mkAnchorConstraints did aid s1.nextConstraintUid vs :=
    fun s1 => (attachLoop_spec did aid vs s1).1
  have hlen : (mkAnchorConstraints did aid s.nextConstraintUid vs).length = vs.length := by
    have := congrArg List.length (mkAnchorConstraints_map_vertex did aid s.nextConstraintUid vs)
    simpa using this
  refine ⟨?_, hlen, mkAnchorConstraints_map_vertex did aid _ vs,
    mkAnchorConstraints_mem did aid _ vs, ?_, ?_⟩
  · unfold attachAnchor
    by_cases hc : c = true
    · rw [if_pos hc, hbase]
      rfl
    · rw [if_neg hc, hbase]
  · intro hvs
    subst hvs
    unfold attachAnchor
    by_cases hc : c = true
    · rw [if_pos hc]
      simp [mkAnchorConstraints, changeVisualShape]
    · rw [if_neg hc]
      simp [mkAnchorConstraints]
  · unfold attachAnchor
    by_cases hc : c = true
    · rw [if_pos hc, if_pos hc, (attachLoop_spec did aid vs _).2]
      rfl
    · rw [if_neg hc, if_neg hc, (attachLoop_spec did aid vs _).2]

/-- C8 witness: attaching vertex 5 of deformable 2 to anchor body 3 in the
pristine simulator creates the single constraint (2, 5, 3, uid 0), which
links vertex 5 to body 3. -/
theorem attachAnchor_one_constraint_per_vertex_witness :
    ({ deformId := 2, vertex := 5, bodyId := 3, cid := 0 } : Constraint).deformId = 2 ∧
    ({ deformId := 2, vertex := 5, bodyId := 3, cid := 0 } : Constraint).bodyId = 3 :=
  (attachAnchor_one_constraint_per_vertex simEmpty 3 [5] 2 true).2.2.2.1
    { deformId := 2, vertex := 5, bodyId := 3, cid := 0 } (by decide)

/-- C10: create_anchor_geom attaches a collision shape to the marker iff
the mass is strictly positive and use_collision holds (otherwise the
collision shape index is the sentinel -1), and every body created by
pin_fixed (zero-mass pins) carries no collision shape. -/
theorem createAnchorGeom_collision_iff :
    (∀ (s : SimState) (pos : Vec3) (mass radius : ℚ) (rgba : Rgba) (uc : Bool),
      ∃ b : Body,
        (createAnchorGeom s pos mass radius rgba uc).2.bodies = s.bodies ++ [b] ∧
        b.bodyId = (createAnchorGeom s pos mass radius rgba uc).1 ∧
        b.mass = mass ∧
        (b.collisionShapeIndex = -1 ↔ ¬(0 < mass ∧ uc = true))) ∧
    (∀ (s : SimState) (did : ℕ) (vids : List ℕ) (vpl : List Vec3) (b : Body),
      b ∈ (pinFixed s did vids vpl).1.bodies →
      b ∈ s.bodies ∨ (b.mass = 0 ∧ b.collisionShapeIndex = -1)) := by
  constructor
  · intro s pos mass radius rgba uc
    refine ⟨_, createAnchorGeom_bodies s pos mass radius rgba uc, ?_, rfl, ?_⟩
    · rw [createAnchorGeom_fst]
    · dsimp only
      by_cases hc : 0 < mass ∧ uc = true
      · rw [if_pos hc]
        exact iff_of_false (by omega) (not_not_intro hc)
      · rw [if_neg hc]
        exact iff_of_true rfl hc
  · intro s did vids vpl b hb
    exact pinFixedLoop_mem did vpl vids s b hb

/-- C10 witness: pinning vertex 0 of deformable 0 at position vzero in the
pristine simulator creates the zero-mass marker body 0 with collision
shape index -1. -/
theorem createAnchorGeom_collision_iff_witness :
    ({ bodyId := 0, mass := 0, basePosition := vzero, collisionShapeIndex := -1,
       visualShapeIndex := 0, rgba := ANCHOR_RGBA_PEACH } : Body) ∈ simEmpty.bodies ∨
    (({ bodyId := 0, mass := 0, basePosition := vzero, collisionShapeIndex := -1,
        visualShapeIndex := 0, rgba := ANCHOR_RGBA_PEACH } : Body).mass = 0 ∧
     ({ bodyId := 0, mass := 0, basePosition := vzero, collisionShapeIndex := -1,
        visualShapeIndex := 0, rgba := ANCHOR_RGBA_PEACH } : Body).collisionShapeIndex = -1) :=
  createAnchorGeom_collision_iff.2 simEmpty 0 [0] [vzero] _ (by decide)

/-! ### C5 -/

/-- C5: create_anchor resolves the vertex selection in priority order:
with presets enabled and a preset list supplied it takes the slot list
verbatim and recenters on the centroid of those vertices in the current
mesh; otherwise with use_closest enabled it mirrors get_closest with no
distance cap seeded at the given position; otherwise it keeps the given
position and selects no vertices (visual-only anchor). -/
theorem createAnchor_selection_priority :
    (∀ (pos : Vec3) (idx : ℕ) (presets : List (List ℕ)) (mesh : List Vec3)
        (uc : Bool) (h : idx < presets.length) (pts : List Vec3),
        gatherVerts mesh (presets.get ⟨idx, h⟩) = Except.ok pts →
        createAnchorSelect pos idx (some presets) mesh true uc =
          Except.ok (centroid pts, some (presets.get ⟨idx, h⟩))) ∧
    (∀ (pos : Vec3) (idx : ℕ) (pv : Option (List (List ℕ))) (mesh : List Vec3)
        (up : Bool), up = false ∨ pv = none →
        createAnchorSelect pos idx pv mesh up true =
          (getClosest pos mesh none).map (fun pr => (pr.1, some pr.2))) ∧
    (∀ (pos : Vec3) (idx : ℕ) (pv : Option (List (List ℕ))) (mesh : List Vec3)
        (up : Bool), up = false ∨ pv = none →
        createAnchorSelect pos idx pv mesh up false = Except.ok (some pos, none)) := by
  refine ⟨?_, ?_, ?_⟩
  · intro pos idx presets mesh uc h pts hg
    unfold createAnchorSelect
    dsimp only
    rw [dif_pos h, hg]
  · intro pos idx pv mesh up hcond
    have hbranch :
        ∀ mv : Except PyErr (Option Vec3 × List ℕ),
          mv = getClosest pos mesh none →
          createAnchorSelect pos idx pv mesh up true =
            (getClosest pos mesh none).map (fun pr => (pr.1, some pr.2)) := by
      intro mv hmv
      rcases hcond with hup | hpv
      · subst hup
        cases pv with
        | none => cases hg : getClosest pos mesh none <;>
            simp [createAnchorSelect, hg, Except.map]
        | some ps => cases hg : getClosest pos mesh none <;>
            simp [createAnchorSelect, hg, Except.map]
      · subst hpv
        cases up with
        | false => cases hg : getClosest pos mesh none <;>
            simp [createAnchorSelect, hg, Except.map]
        | true => cases hg : getClosest pos mesh none <;>
            simp [createAnchorSelect, hg, Except.map]
    exact hbranch (getClosest pos mesh none) rfl
  · intro pos idx pv mesh up hcond
    rcases hcond with hup | hpv
    · subst hup
      cases pv with
      | none => simp [createAnchorSelect]
      | some ps => simp [createAnchorSelect]
    · subst hpv
      cases up with
      | false => simp [createAnchorSelect]
      | true => simp [createAnchorSelect]

/-- C5 witness: the three priority branches at concrete inputs. -/
theorem createAnchor_selection_priority_witness :
    createAnchorSelect vzero 0 (some [[0]]) [⟨1, 1, 1⟩] true true =
      Except.ok (some ⟨1, 1, 1⟩, some [0]) ∧
    createAnchorSelect vzero 0 none [⟨0, 0, 0⟩, ⟨1, 0, 0⟩] true true =
      (getClosest vzero [⟨0, 0, 0⟩, ⟨1, 0, 0⟩] none).map (fun pr => (pr.1, some pr.2)) ∧
    createAnchorSelect vzero 0 none [⟨0, 0, 0⟩] false false =
      Except.ok (some vzero, none) := by
  refine ⟨?_, ?_, ?_⟩
  · have h := createAnchor_selection_priority.1 vzero 0 [[0]] [⟨1, 1, 1⟩] true
      (by decide) [⟨1, 1, 1⟩] (by decide)
    rw [h]
    decide
  · exact createAnchor_selection_priority.2.1 vzero 0 none _ true (Or.inr rfl)
  · exact createAnchor_selection_priority.2.2 vzero 0 none _ false (Or.inr rfl)

/-! ### C3 and C9 -/

/-- C3: with a maximum distance, get_closest drops every selected vertex
whose distance exceeds the cap (the returned set is exactly the filtered
no-cap selection; every survivor is within the cap), and a cap strictly
below every selected distance empties the returned index set. -/
theorem getClosest_maxDist_filters (p : Vec3) (mesh : List Vec3) (r : ℚ)
    (pos0 : Option Vec3) (sel0 : List ℕ)
    (h0 : getClosest p mesh none = Except.ok (pos0, sel0)) :
    getClosest p mesh (some r) =
      Except.ok
        (centroid ((sel0.filter (capKeep (distsOf p mesh) r)).map
            (fun i => mesh.getD i vzero)),
         sel0.filter (capKeep (distsOf p mesh) r)) ∧
    (∀ i ∈ sel0.filter (capKeep (distsOf p mesh) r),
        0 ≤ r ∧ (distsOf p mesh).getD i 0 ≤ r * r) ∧
    ((∀ i ∈ sel0, capKeep (distsOf p mesh) r i = false) →
        getClosest p mesh (some r) = Except.ok (none, [])) := by
  obtain ⟨hk, hres⟩ := getClosest_ok_elim h0
  have hsel : sel0 = selNoCap p mesh := congrArg Prod.snd hres
  refine ⟨?_, ?_, ?_⟩
  · rw [getClosest_eq_ok p mesh (some r) hk, hsel]
    rfl
  · intro i hi
    have := (List.mem_filter.mp hi).2
    simpa [capKeep] using this
  · intro hall
    have hfil : sel0.filter (capKeep (distsOf p mesh) r) = [] :=
      List.filter_eq_nil_iff.mpr (by intro a ha; simp [hall a ha])
    rw [getClosest_eq_ok p mesh (some r) hk]
    have hsel2 : getClosestSel p mesh (some r) = [] := by
      show (selNoCap p mesh).filter _ = []
      rw [← hsel]
      exact hfil
    unfold getClosestOk
    rw [hsel2]
    rfl

/-- C3 witness: on the two-point mesh with cap 1/4 the surviving selected
vertex 0 is within the cap. -/
theorem getClosest_maxDist_filters_witness :
    0 ≤ (1 / 4 : ℚ) ∧
    (distsOf vzero [⟨0, 0, 0⟩, ⟨1, 0, 0⟩]).getD 0 0 ≤ 1 / 4 * (1 / 4) :=
  (getClosest_maxDist_filters vzero [⟨0, 0, 0⟩, ⟨1, 0, 0⟩] (1 / 4)
      (some ⟨0, 0, 0⟩) [0] (by decide)).2.1 0 (by decide)

/-- C9: when the distance filter removes every selected vertex,
get_closest does not raise: it returns the empty index set together with
the mean of the empty vertex set as the position, and that mean is the
NaN marker (none), left for the caller. -/
theorem getClosest_empty_after_filter (p : Vec3) (mesh : List Vec3) (r : ℚ)
    (pos0 : Option Vec3) (sel0 : List ℕ)
    (h0 : getClosest p mesh none = Except.ok (pos0, sel0))
    (hall : ∀ i ∈ sel0, capKeep (distsOf p mesh) r i = false) :
    getClosest p mesh (some r) = Except.ok (centroid [], []) ∧
    centroid ([] : List Vec3) = none := by
  obtain ⟨hk, hres⟩ := getClosest_ok_elim h0
  have hsel : sel0 = selNoCap p mesh := congrArg Prod.snd hres
  have hfil : sel0.filter (capKeep (distsOf p mesh) r) = [] :=
    List.filter_eq_nil_iff.mpr (by intro a ha; simp [hall a ha])
  refine ⟨?_, rfl⟩
  rw [getClosest_eq_ok p mesh (some r) hk]
  have hsel2 : getClosestSel p mesh (some r) = [] := by
    show (selNoCap p mesh).filter _ = []
    rw [← hsel]
    exact hfil
  unfold getClosestOk
  rw [hsel2]
  rfl

/-- C9 witness: the two-point mesh with cap -1 filters out the whole
selection and yields the ok pair of the NaN centroid and the empty set. -/
theorem getClosest_empty_after_filter_witness :
    getClosest vzero [⟨0, 0, 0⟩, ⟨1, 0, 0⟩] (some (-1)) =
      Except.ok (centroid [], []) ∧
    centroid ([] : List Vec3) = none :=
  getClosest_empty_after_filter vzero [⟨0, 0, 0⟩, ⟨1, 0, 0⟩] (-1)
    (some ⟨0, 0, 0⟩) [0] (by decide) (by decide)

/-! ### Supporting lemmas for C2 -/

theorem getD_of_lt {α : Type} (l : List α) (d : α) {n : ℕ} (h : n < l.length) :
    l.getD n d = l.get ⟨n, h⟩ := by
  simp [List.getD_eq_getElem?_getD, List.getElem?_eq_getElem h]

theorem length_distsOf (p : Vec3) (mesh : List Vec3) :
    (distsOf p mesh).length = mesh.length :=
  List.length_map _ _

theorem argsortIdx_perm (d : List ℚ) : (argsortIdx d).Perm (List.range d.length) :=
  List.perm_insertionSort _ _

theorem length_argsortIdx (d : List ℚ) : (argsortIdx d).length = d.length := by
  rw [(argsortIdx_perm d).length_eq, List.length_range]

theorem mem_argsortIdx {d : List ℚ} {i : ℕ} (h : i ∈ argsortIdx d) : i < d.length :=
  List.mem_range.mp ((argsortIdx_perm d).mem_iff.mp h)

theorem selNoCap_length (p : Vec3) (mesh : List Vec3) :
    (selNoCap p mesh).length = numToPin mesh.length := by
  unfold selNoCap
  rw [List.length_take, length_argsortIdx, length_distsOf]
  exact Nat.min_eq_left (Nat.min_le_left _ _)

theorem sorted_map_argsortIdx (d : List ℚ) :
    ((argsortIdx d).map (fun i => d.getD i 0)).Sorted (fun a b => a ≤ b) := by
  have hs : (argsortIdx d).Sorted (distLE d) := List.sorted_insertionSort _ _
  exact List.Pairwise.map _ (fun a b hab => hab) hs

theorem map_getD_range (d : List ℚ) :
    (List.range d.length).map (fun i => d.getD i 0) = d := by
  apply List.ext_getElem
  · simp
  · intro i h1 h2
    simp [List.getElem_map, List.getElem_range, List.getD_eq_getElem?_getD,
      List.getElem?_eq_getElem h2]

theorem map_argsort_eq_sorted (d : List ℚ) :
    (argsortIdx d).map (fun i => d.getD i 0) =
      List.insertionSort (fun a b => a ≤ b) d := by
  have hperm : ((argsortIdx d).map (fun i => d.getD i 0)).Perm
      (List.insertionSort (fun a b => a ≤ b) d) :=
    ((argsortIdx_perm d).map _).trans
      (by rw [map_getD_range]; exact (List.perm_insertionSort _ d).symm)
  exact List.eq_of_perm_of_sorted hperm (sorted_map_argsortIdx d)
    (List.sorted_insertionSort _ d)

theorem sorted_take_le : ∀ (S : List ℚ) (k : ℕ), S.Sorted (fun a b => a ≤ b) →
    k < S.length → ∀ x ∈ S.take k, x ≤ S.getD k 0 := by
  intro S
  induction S with
  | nil =>
    intro k _ hk
    exact absurd hk (Nat.not_lt_zero k)
  | cons s0 stl ih =>
    intro k hs hk x hx
    cases k with
    | zero => simp at hx
    | succ k =>
      rw [List.take_succ_cons] at hx
      have hk2 : k < stl.length := Nat.lt_of_succ_lt_succ hk
      have hsplit := List.sorted_cons.mp hs
      rcases List.mem_cons.mp hx with rfl | hx2
      · have hmem : stl.getD k 0 ∈ stl := by
          rw [getD_of_lt stl 0 hk2]
          exact List.get_mem stl k hk2
        simpa [List.getD_cons_succ] using hsplit.1 _ hmem
      · simpa [List.getD_cons_succ] using ih k hsplit.2 hk2 x hx2

theorem distsOf_getD (p : Vec3) (mesh : List Vec3) {i : ℕ} (h : i < mesh.length) :
    (distsOf p mesh).getD i 0 = sqDist (mesh.getD i vzero) p := by
  have hlen : i < (distsOf p mesh).length := by rwa [length_distsOf]
  rw [getD_of_lt _ _ hlen, getD_of_lt _ vzero h]
  unfold distsOf
  simp [List.get_eq_getElem, List.getElem_map]

/-! ### C2 -/

/-- C2: with no distance cap, every vertex index that get_closest returns
lies in the mesh and its (squared) distance to the target is at most the
(k+1)-st smallest (squared) distance over the whole mesh, where k is the
returned cluster size — the returned set is a set of k closest points
regardless of tie order.  Squared distances compare exactly as the
Euclidean distances of the source. -/
theorem getClosest_selects_k_closest (p : Vec3) (mesh : List Vec3)
    (pos : Option Vec3) (sel : List ℕ) (i : ℕ)
    (h : getClosest p mesh none = Except.ok (pos, sel)) (hi : i ∈ sel) :
    i < mesh.length ∧
    sqDist (mesh.getD i vzero) p ≤ nthSmallestSq p mesh sel.length := by
  obtain ⟨hk, hres⟩ := getClosest_ok_elim h
  have hsel : sel = selNoCap p mesh := congrArg Prod.snd hres
  subst hsel
  have hiA : i ∈ argsortIdx (distsOf p mesh) := List.mem_of_mem_take hi
  have hiN : i < mesh.length := by
    have h2 := mem_argsortIdx hiA
    rwa [length_distsOf] at h2
  refine ⟨hiN, ?_⟩
  have hkey_mem : (distsOf p mesh).getD i 0 ∈
      (List.insertionSort (fun a b => a ≤ b) (distsOf p mesh)).take
        (numToPin mesh.length) := by
    have h1 : (distsOf p mesh).getD i 0 ∈
        (selNoCap p mesh).map (fun j => (distsOf p mesh).getD j 0) :=
      List.mem_map_of_mem _ hi
    unfold selNoCap at h1
    rw [List.map_take, map_argsort_eq_sorted] at h1
    exact h1
  have hkS : numToPin mesh.length <
      (List.insertionSort (fun a b => a ≤ b) (distsOf p mesh)).length := by
    rw [List.length_insertionSort, length_distsOf]
    exact hk
  have hle := sorted_take_le _ _ (List.sorted_insertionSort _ _) hkS _ hkey_mem
  rw [distsOf_getD p mesh hiN] at hle
  rw [selNoCap_length]
  exact hle

/-- C2 witness: on the two-point mesh the returned index 0 is in range and
within the second-smallest distance. -/
theorem getClosest_selects_k_closest_witness :
    (0 : ℕ) < ([⟨0, 0, 0⟩, ⟨1, 0, 0⟩] : List Vec3).length ∧
    sqDist (([⟨0, 0, 0⟩, ⟨1, 0, 0⟩] : List Vec3).getD 0 vzero) vzero ≤
      nthSmallestSq vzero [⟨0, 0, 0⟩, ⟨1, 0, 0⟩] ([0] : List ℕ).length :=
  getClosest_selects_k_closest vzero [⟨0, 0, 0⟩, ⟨1, 0, 0⟩] (some ⟨0, 0, 0⟩) [0] 0
    (by decide) (by decide)

/-! ### Supporting facts: the cluster-size law on meshes with at least two
points, and the size formula at the sizes named by the spec. -/

theorem numToPin_lt (n : ℕ) (h2 : 2 ≤ n) : numToPin n < n := by
  unfold numToPin
  have hd : n / 50 < n := Nat.div_lt_self (by omega) (by omega)
  exact lt_of_le_of_lt (min_le_right _ _) (max_lt (by omega) hd)

theorem numToPin_examples : numToPin 200 = 4 ∧ numToPin 10 = 1 ∧ numToPin 1 = 1 := by
  decide

theorem getClosest_length_no_cap (p : Vec3) (mesh : List Vec3)
    (h2 : 2 ≤ mesh.length) :
    ∃ pos, getClosest p mesh none = Except.ok (pos, selNoCap p mesh) ∧
      (selNoCap p mesh).length = min mesh.length (max 1 (mesh.length / 50)) :=
  ⟨(getClosestOk p mesh none).1,
   (getClosest_eq_ok p mesh none (numToPin_lt _ h2)).trans rfl,
   by rw [selNoCap_length]; rfl⟩
